import Mathlib

/-!
Verification of the log-analysis and summarization pipeline of the
smart-summarization-camera repository, against its natural-language
specification.  The Python sources `ocr_updated_analyze.py` and
`ocr_analyzer.py` are shallowly embedded below: pure functions become Lean
functions, per-record `try/except` becomes `Option`, machine time values
become integer microseconds of the day, and Python `float` seconds become
exact rationals (the comparisons and values appearing in the code are exact
in both representations).  Python's stable sorts (`list.sort`, and the
`sorted`-equivalent used by `heapq.nlargest` and `Counter.most_common`) are
modelled by the stable `List.insertionSort`.  The external NLTK
collaborators (sentence segmentation, word tokenization, the stop-word
list) are modelled from the specification's description of them; each such
definition is marked `Modelled from the spec:` in its doc comment.
-/

/-- Split a character list at every occurrence of `sep`; empty segments are
kept, so this agrees with Python `str.split(sep)` with an explicit
separator.  `acc` holds the reversed current segment. -/
def splitOnCharAux (sep : Char) : List Char → List Char → List (List Char)
  | [], acc => [acc.reverse]
  | c :: rest, acc =>
    if c == sep then acc.reverse :: splitOnCharAux sep rest []
    else splitOnCharAux sep rest (c :: acc)

/-- Python `str.split(sep)` with an explicit single-character separator. -/
def splitOnChar (sep : Char) (cs : List Char) : List (List Char) :=
  splitOnCharAux sep cs []

/-- Python `sentence.split(' ')` as a string-level operation (used by the
summarizer's sentence-length filter). -/
def pySplitSp (s : String) : List String :=
  (splitOnChar ' ' s.data).map (fun cs => String.mk cs)

/-- Python `str.lower` (ASCII fragment, sufficient for the analyzers'
inputs). -/
def pyLower (s : String) : String :=
  String.mk (s.data.map Char.toLower)

/-- Modelled from the spec: terminal punctuation markers used by the
sentence-boundary heuristic of the external sentence segmenter. -/
def isTerminal (c : Char) : Bool :=
  c = '.' || c = '!' || c = '?'

/-- Modelled from the spec: segmentation of a pseudo-document into
sentence-like units at a terminal punctuation marker followed by a space
(the separating space belongs to neither unit, as with `nltk.sent_tokenize`,
which is external to the repository).  `acc` holds the reversed characters
of the unit under construction. -/
def sentAux : List Char → List Char → List (List Char)
  | [], acc =>
    match acc with
    | [] => []
    | _ => [acc.reverse]
  | [c], acc => [(c :: acc).reverse]
  | c :: c2 :: rest, acc =>
    if isTerminal c && c2 == ' ' then (c :: acc).reverse :: sentAux rest []
    else sentAux (c2 :: rest) (c :: acc)

/-- Modelled from the spec: the sentence segmenter over strings. -/
def sentTokenize (s : String) : List String :=
  (sentAux s.data []).map (fun cs => String.mk cs)

/-- Modelled from the spec: word tokenization — maximal alphanumeric runs
are word tokens, every other non-whitespace character is a token of its own
(`nltk.word_tokenize` is external to the repository). -/
def wordAux : List Char → List Char → List (List Char)
  | [], acc =>
    match acc with
    | [] => []
    | _ => [acc.reverse]
  | c :: rest, acc =>
    if c.isAlphanum then
      wordAux rest (c :: acc)
    else
      match acc with
      | [] => if c.isWhitespace then wordAux rest [] else [c] :: wordAux rest []
      | _ =>
        if c.isWhitespace then acc.reverse :: wordAux rest []
        else acc.reverse :: [c] :: wordAux rest []

/-- Modelled from the spec: the word tokenizer over strings. -/
def wordTokenize (s : String) : List String :=
  (wordAux s.data []).map (fun cs => String.mk cs)

/-- Python `" ".join`, as used to reconstruct the pseudo-document
(`text = " ".join(all_words)`) and to join the selected sentences. -/
def joinSp : List String → String
  | [] => ""
  | [s] => s
  | s :: rest => s ++ " " ++ joinSp rest

/-- Join character-level sentence units with single spaces. -/
def charJoin : List (List Char) → List Char
  | [] => []
  | [s] => s
  | s :: rest => s ++ ' ' :: charJoin rest

/-- The text ends with a terminal punctuation marker directly followed by a
single final space — the one shape on which re-joining the segmented units
with single spaces drops that trailing space. -/
def endsTermSpace : List Char → Bool
  | [t, sp] => isTerminal t && sp == ' '
  | _ :: rest => endsTermSpace rest
  | [] => false

/-- Python `str.isalnum` (ASCII fragment, which covers the OCR pipeline's
cleaned words): nonempty and every character alphanumeric. -/
def pyIsAlnum (s : String) : Bool :=
  !s.data.isEmpty && s.data.all Char.isAlphanum

/-- Modelled from the spec: the common English stop-word list of the
external NLP toolkit (`nltk.corpus.stopwords.words("english")`); the
apostrophized contraction entries are omitted because the word-tokenizer
model never produces a token containing an apostrophe. -/
def stopWords : List String :=
  ["i", "me", "my", "myself", "we", "our", "ours", "ourselves", "you", "your", "yours",
   "yourself", "yourselves", "he", "him", "his", "himself", "she", "her", "hers",
   "herself", "it", "its", "itself", "they", "them", "their", "theirs", "themselves",
   "what", "which", "who", "whom", "this", "that", "these", "those", "am", "is", "are",
   "was", "were", "be", "been", "being", "have", "has", "had", "having", "do", "does",
   "did", "doing", "a", "an", "the", "and", "but", "if", "or", "because", "as", "until",
   "while", "of", "at", "by", "for", "with", "about", "against", "between", "into",
   "through", "during", "before", "after", "above", "below", "to", "from", "up", "down",
   "in", "out", "on", "off", "over", "under", "again", "further", "then", "once", "here",
   "there", "when", "where", "why", "how", "all", "any", "both", "each", "few", "more",
   "most", "other", "some", "such", "no", "nor", "not", "only", "own", "same", "so",
   "than", "too", "very", "s", "t", "can", "will", "just", "don", "should", "now", "d",
   "ll", "m", "o", "re", "ve", "y", "ain", "aren", "couldn", "didn", "doesn", "hadn",
   "hasn", "haven", "isn", "ma", "mightn", "mustn", "needn", "shan", "shouldn", "wasn",
   "weren", "won", "wouldn"]

/-- Digits of a decimal numeral, most significant first. -/
def digitsToNat (cs : List Char) : Nat :=
  cs.foldl (fun a c => 10 * a + (c.toNat - 48)) 0

/-- One numeric field of `strptime`: nonempty, all digits, at most `maxLen`
digits, value at most `maxVal` (the `%H`, `%M`, `%S` directives each match
one or two digits up to their bound). -/
def parseField (cs : List Char) (maxLen maxVal : Nat) : Option Nat :=
  if cs ≠ [] ∧ cs.length ≤ maxLen ∧ cs.all Char.isDigit ∧ digitsToNat cs ≤ maxVal then
    some (digitsToNat cs)
  else
    none

/-- The `%f` directive: one to six digits, right-padded to microseconds. -/
def parseFrac (cs : List Char) : Option Nat :=
  if cs ≠ [] ∧ cs.length ≤ 6 ∧ cs.all Char.isDigit then
    some (digitsToNat cs * 10 ^ (6 - cs.length))
  else
    none

/-- `datetime.strptime(time_str, "%H:%M:%S.%f")` from `parse_timestamp`
(both analyzer files, identically): microseconds of the day on success. -/
def strptimeHMSf (ts : String) : Option Nat :=
  match splitOnChar ':' ts.data with
  | [h, m, sf] =>
    match splitOnChar '.' sf with
    | [s, f] => do
      let hv ← parseField h 2 23
      let mv ← parseField m 2 59
      let sv ← parseField s 2 59
      let fv ← parseFrac f
      pure (((hv * 60 + mv) * 60 + sv) * 1000000 + fv)
    | _ => none
  | _ => none

/-- `datetime.strptime(time_str, "%H:%M:%S")` from `parse_timestamp`. -/
def strptimeHMS (ts : String) : Option Nat :=
  match splitOnChar ':' ts.data with
  | [h, m, s] => do
    let hv ← parseField h 2 23
    let mv ← parseField m 2 59
    let sv ← parseField s 2 59
    pure (((hv * 60 + mv) * 60 + sv) * 1000000)
  | _ => none

/-- `parse_timestamp` (identical in `ocr_analyzer.py` lines 31-39 and
`ocr_updated_analyze.py` lines 37-45): try the fractional format first,
fall back to the whole-second format, fail otherwise.  The raised
`ValueError` of the source is the `none` case. -/
def parse_timestamp (ts : String) : Option Nat :=
  (strptimeHMSf ts).orElse (fun _ => strptimeHMS ts)

/-- `timedelta.total_seconds()` on a microsecond difference, as an exact
rational (exact for every value the analyzers compare or report). -/
def total_seconds (d : Int) : ℚ :=
  (d : ℚ) / 1000000

example : parse_timestamp "09:00:02" = some 32402000000 := by decide
example : parse_timestamp "09:00:02.5" = some 32402500000 := by decide
example : parse_timestamp "bogus" = none := by decide
example : parse_timestamp "10:61:00" = none := by decide
example : sentTokenize "hello. world" = ["hello.", "world"] := by decide
example : sentTokenize "a. " = ["a."] := by decide
example : wordTokenize "a. b#c" = ["a", ".", "b", "#", "c"] := by decide
example : joinSp ["a.", ""] = "a. " := by decide
example : endsTermSpace ("a. ").data = true := by decide
example : pySplitSp "a b  c" = ["a", "b", "", "c"] := by decide
example : pyLower "Ab C." = "ab c." := by decide

/-- Keys of an insertion-ordered association list (a Python `dict`
preserves insertion order of its keys). -/
def dictKeys {β : Type} (d : List (String × β)) : List String :=
  d.map (fun p => p.1)

/-- One `word_frequencies[word] += 1 / = 1` step of
`generate_extractive_summary` (insertion-ordered dictionary update). -/
def bumpFreq (d : List (String × Nat)) (w : String) : List (String × Nat) :=
  if w ∈ dictKeys d then
    d.map (fun p => if p.1 = w then (p.1, p.2 + 1) else p)
  else
    d ++ [(w, 1)]

/-- The word-frequency loop of `generate_extractive_summary`
(`ocr_updated_analyze.py` lines 71-79): count the alphanumeric,
non-stop-word tokens. -/
def wordFrequencies (tokens : List String) : List (String × Nat) :=
  tokens.foldl
    (fun d w => if pyIsAlnum w = true ∧ w ∉ stopWords then bumpFreq d w else d) []

/-- `max(word_frequencies.values()) if word_frequencies else 1`
(line 82). -/
def maxFrequency (d : List (String × Nat)) : Nat :=
  match d with
  | [] => 1
  | _ => (d.map (fun p => p.2)).foldl Nat.max 0

/-- The normalization loop (lines 83-84): divide every count by the
maximum count. -/
def normFrequencies (d : List (String × Nat)) : List (String × ℚ) :=
  d.map (fun p => (p.1, (p.2 : ℚ) / (maxFrequency d : ℚ)))

/-- Dictionary lookup `word_frequencies[word]` / `sentence_scores.get`
(first matching key; `0` is unreachable filler for a missing key). -/
def lookupScore (d : List (String × ℚ)) (w : String) : ℚ :=
  match d.find? (fun p => p.1 == w) with
  | some p => p.2
  | none => 0

/-- `sentence_scores[sentence] = v` / `+= v` (lines 92-95), an
insertion-ordered dictionary update. -/
def addScore (d : List (String × ℚ)) (s : String) (v : ℚ) : List (String × ℚ) :=
  if s ∈ dictKeys d then
    d.map (fun p => if p.1 = s then (p.1, p.2 + v) else p)
  else
    d ++ [(s, v)]

/-- The body of the inner scoring loop (lines 89-95): for a token `w` of
the lowercased sentence `s` that is a key of the word-frequency table, and
provided `len(sentence.split(' ')) < 30`, add its normalized frequency to
the sentence's score. -/
def scoreStep (wf : List (String × ℚ)) (s : String) (d2 : List (String × ℚ)) (w : String) :
    List (String × ℚ) :=
  if w ∈ dictKeys wf then
    if (pySplitSp s).length < 30 then addScore d2 s (lookupScore wf w) else d2
  else d2

/-- The inner loop of sentence scoring (lines 88-95), folding `scoreStep`
over the tokens of the lowercased sentence. -/
def scoreSentence (wf : List (String × ℚ)) (d : List (String × ℚ)) (s : String) :
    List (String × ℚ) :=
  (wordTokenize (pyLower s)).foldl (scoreStep wf s) d

/-- The sentence-scoring loop of `generate_extractive_summary`
(lines 87-95). -/
def sentenceScores (wf : List (String × ℚ)) (sentences : List String) :
    List (String × ℚ) :=
  sentences.foldl (scoreSentence wf) []

/-- `heapq.nlargest(n, sentence_scores, key=sentence_scores.get)`
(line 99): the dictionary's keys in insertion order, stably sorted by
descending score, first `n` taken.  Python's `nlargest` is documented as
`sorted(iterable, key=key, reverse=True)[:n]`, a stable descending sort. -/
def nlargestKeys (n : Nat) (d : List (String × ℚ)) : List String :=
  ((dictKeys d).insertionSort (fun a b => lookupScore d b ≤ lookupScore d a)).take n

/-- The word-frequency table `generate_extractive_summary` builds for a
given word stream: tokens of the lowercased reconstructed text, counted
with the stop-word and alphanumeric filter, then normalized (lines 60-84). -/
def summaryWF (all_words : List String) : List (String × ℚ) :=
  normFrequencies (wordFrequencies (wordTokenize (pyLower (joinSp all_words))))

/-- The sentence units `generate_extractive_summary` segments the
reconstructed text into (line 63). -/
def summarySentences (all_words : List String) : List String :=
  sentTokenize (joinSp all_words)

/-- The sentence-score dictionary `generate_extractive_summary` builds
(lines 87-95). -/
def summaryScores (all_words : List String) : List (String × ℚ) :=
  sentenceScores (summaryWF all_words) (summarySentences all_words)

/-- `generate_extractive_summary` (`ocr_updated_analyze.py` lines 49-101):
empty word stream returns the fixed message; fewer sentence units than
`num_sentences` returns the units re-joined; otherwise the top
`num_sentences` sentences by score, joined by single spaces. -/
def generate_extractive_summary (all_words : List String) (num_sentences : Nat) : String :=
  if all_words = [] then
    "Not enough coherent text detected to generate a narrative summary."
  else if (summarySentences all_words).length < num_sentences then
    joinSp (summarySentences all_words)
  else
    joinSp (nlargestKeys num_sentences (summaryScores all_words))

example :
    generate_extractive_summary [] 4 =
      "Not enough coherent text detected to generate a narrative summary." := by decide
example : generate_extractive_summary ["hello.", "world"] 4 = "hello. world" := by decide
example : generate_extractive_summary ["#.", "#.", "#.", "#."] 4 = "" := by decide

/-- The segmenter never returns an empty unit list on nonempty input. -/
theorem sentAux_cons_ne_nil : ∀ (cs acc : List Char), cs ≠ [] → sentAux cs acc ≠ []
  | [], _, h => absurd rfl h
  | [_], _, _ => by simp [sentAux]
  | c :: c2 :: rest, acc, _ => by
    simp only [sentAux]
    split
    · simp
    · exact sentAux_cons_ne_nil (c2 :: rest) (c :: acc) (by simp)
termination_by cs _ _ => cs.length

/-- Re-joining the segmented units with single spaces restores the exact
input text, provided the text does not end in a terminal punctuation
marker followed by a final space (the separating space at that position is
consumed with nothing following it). -/
theorem charJoin_sentAux : ∀ (cs acc : List Char), endsTermSpace cs = false →
    charJoin (sentAux cs acc) = acc.reverse ++ cs
  | [], acc, _ => by
    cases acc with
    | nil => simp [sentAux, charJoin]
    | cons a l => simp [sentAux, charJoin]
  | [c], acc, _ => by
    simp [sentAux, charJoin]
  | c :: c2 :: rest, acc, h => by
    simp only [sentAux]
    split
    case isTrue hb =>
      have hc2 : c2 = ' ' := by
        have := (Bool.and_eq_true _ _).mp hb |>.2
        exact eq_of_beq this
      subst hc2
      have hct : isTerminal c = true := (Bool.and_eq_true _ _).mp hb |>.1
      cases rest with
      | nil =>
        exfalso
        simp [endsTermSpace, hct] at h
      | cons c3 rest2 =>
        have hrest : endsTermSpace (c3 :: rest2) = false := by
          by_contra hh
          rw [Bool.not_eq_false] at hh
          have h1 : endsTermSpace (' ' :: c3 :: rest2) = true := by
            cases rest2 with
            | nil =>
              simp [endsTermSpace] at hh
            | cons c4 rest3 => simpa [endsTermSpace] using hh
          have h2 : endsTermSpace (c :: ' ' :: c3 :: rest2) = true := by
            simpa [endsTermSpace] using h1
          rw [h2] at h
          exact Bool.true_eq_false.mp h
        have hne : sentAux (c3 :: rest2) [] ≠ [] :=
          sentAux_cons_ne_nil (c3 :: rest2) [] (by simp)
        obtain ⟨x, xs, hx⟩ := List.exists_cons_of_ne_nil hne
        have ih := charJoin_sentAux (c3 :: rest2) [] hrest
        rw [hx] at ih ⊢
        simp only [charJoin, List.reverse_nil, List.nil_append] at ih ⊢
        rw [ih]
        simp [List.reverse_cons, List.append_assoc]
    case isFalse hb =>
      have hrest : endsTermSpace (c2 :: rest) = false := by
        cases rest with
        | nil => simp [endsTermSpace]
        | cons c3 rest2 =>
          by_contra hh
          rw [Bool.not_eq_false] at hh
          have h2 : endsTermSpace (c :: c2 :: c3 :: rest2) = true := by
            simpa [endsTermSpace] using hh
          rw [h2] at h
          exact Bool.true_eq_false.mp h
      have ih := charJoin_sentAux (c2 :: rest) (c :: acc) hrest
      rw [ih]
      simp [List.reverse_cons, List.append_assoc]
termination_by cs _ _ => cs.length

/-- `String.mk` turns character-list concatenation into string
concatenation. -/
theorem mk_append_mk (a b : List Char) : String.mk a ++ String.mk b = String.mk (a ++ b) :=
  rfl

/-- `joinSp` over string-wrapped units is `charJoin` of the units. -/
theorem joinSp_map_mk : ∀ L : List (List Char),
    joinSp (L.map (fun cs => String.mk cs)) = String.mk (charJoin L)
  | [] => rfl
  | [s] => rfl
  | s :: s2 :: rest => by
    have ih := joinSp_map_mk (s2 :: rest)
    simp only [List.map_cons] at ih ⊢
    show String.mk s ++ " " ++ joinSp (String.mk s2 :: (rest.map (fun cs => String.mk cs))) =
      String.mk (charJoin (s :: s2 :: rest))
    rw [ih]
    show String.mk s ++ String.mk [' '] ++ String.mk (charJoin (s2 :: rest)) =
      String.mk (charJoin (s :: s2 :: rest))
    rw [mk_append_mk, mk_append_mk]
    have : (s ++ [' ']) ++ charJoin (s2 :: rest) = s ++ ' ' :: charJoin (s2 :: rest) := by
      simp
    rw [this]
    rfl

/-- C3: for the empty word stream, the extractive summarizer returns the
fixed "insufficient data" message ("Not enough coherent text detected to
generate a narrative summary."), for every requested summary length; it
never returns the empty string (and, being a total function, never
raises). -/
theorem c3_empty_stream_message :
    (∀ n, generate_extractive_summary [] n =
        "Not enough coherent text detected to generate a narrative summary.") ∧
    "Not enough coherent text detected to generate a narrative summary." ≠ "" := by
  constructor
  · intro n
    rfl
  · decide

/-- C4 counterexample: the word stream `["a.", ""]` is non-empty and its
reconstructed pseudo-document `"a. "` segments into a single sentence unit
(fewer than 4), yet the summarizer returns `"a."`, not the reconstructed
text `"a. "` verbatim — the segmenter consumes the trailing separator
space.  This refutes the claim's "returns the entire reconstructed text
verbatim" for every non-empty word stream. -/
theorem c4_counterexample :
    (["a.", ""] : List String) ≠ [] ∧
    (summarySentences ["a.", ""]).length < 4 ∧
    generate_extractive_summary ["a.", ""] 4 ≠ joinSp ["a.", ""] := by decide

/-- C4 (amended): for every non-empty word stream whose reconstruction
segments into fewer than 4 sentence units, the summarizer returns all the
sentence units re-joined with single spaces, with no scoring and no
truncation of units; this equals the reconstructed text verbatim whenever
the reconstructed text does not end in a terminal punctuation marker
followed by a final space (as happens when the final word is the empty
string). -/
theorem c4_few_sentences_full_text (ws : List String) (h1 : ws ≠ [])
    (h2 : (summarySentences ws).length < 4) :
    generate_extractive_summary ws 4 = joinSp (summarySentences ws) ∧
    (endsTermSpace (joinSp ws).data = false → generate_extractive_summary ws 4 = joinSp ws) := by
  have hmain : generate_extractive_summary ws 4 = joinSp (summarySentences ws) := by
    unfold generate_extractive_summary
    rw [if_neg h1, if_pos h2]
  refine ⟨hmain, fun hets => ?_⟩
  rw [hmain]
  unfold summarySentences sentTokenize
  rw [joinSp_map_mk, charJoin_sentAux _ [] hets]
  rfl

/-- C4 witness: a concrete short stream on which the amended theorem
applies and returns the reconstructed text. -/
theorem c4_witness :
    generate_extractive_summary ["hello.", "world"] 4 = "hello. world" := by
  have h := (c4_few_sentences_full_text ["hello.", "world"] (by decide) (by decide)).2 (by decide)
  rw [h]
  rfl

/-- C10: there is a non-empty word stream on which the extractive
summarizer returns the empty string: `["#.", "#.", "#.", "#."]` segments
into 4 sentence units (so the short-input path is not taken), but every
token is non-alphanumeric, the word-frequency table is empty, no sentence
is ever scored, and the join of the empty selection is `""` rather than an
"insufficient data" message. -/
theorem c10_nonempty_stream_empty_summary :
    (["#.", "#.", "#.", "#."] : List String) ≠ [] ∧
    4 ≤ (summarySentences ["#.", "#.", "#.", "#."]).length ∧
    summaryWF ["#.", "#.", "#.", "#."] = [] ∧
    summaryScores ["#.", "#.", "#.", "#."] = [] ∧
    generate_extractive_summary ["#.", "#.", "#.", "#."] 4 = "" := by decide

/-- Updating an existing entry of a score dictionary leaves its key
sequence unchanged. -/
theorem dictKeys_update (d : List (String × ℚ)) (s : String) (v : ℚ) :
    dictKeys (d.map (fun p => if p.1 = s then (p.1, p.2 + v) else p)) = dictKeys d := by
  unfold dictKeys
  rw [List.map_map]
  apply List.map_congr_left
  intro p _
  by_cases hp : p.1 = s <;> simp [Function.comp, hp]

/-- Membership in the keys after an `addScore` update. -/
theorem mem_dictKeys_addScore (d : List (String × ℚ)) (s : String) (v : ℚ) (x : String) :
    x ∈ dictKeys (addScore d s v) ↔ x ∈ dictKeys d ∨ x = s := by
  unfold addScore
  split
  case isTrue hc =>
    rw [dictKeys_update]
    constructor
    · exact Or.inl
    · rintro (h | h)
      · exact h
      · exact h ▸ hc
  case isFalse hc =>
    unfold dictKeys
    simp

/-- A `scoreStep` never removes a key. -/
theorem mem_dictKeys_scoreStep_mono (wf : List (String × ℚ)) (s : String)
    (d : List (String × ℚ)) (w x : String) (hx : x ∈ dictKeys d) :
    x ∈ dictKeys (scoreStep wf s d w) := by
  unfold scoreStep
  split
  · split
    · exact (mem_dictKeys_addScore d s _ x).mpr (Or.inl hx)
    · exact hx
  · exact hx

/-- A `scoreStep` can only add the key of the sentence under scoring. -/
theorem mem_dictKeys_scoreStep_elim (wf : List (String × ℚ)) (s : String)
    (d : List (String × ℚ)) (w x : String) (hx : x ∈ dictKeys (scoreStep wf s d w)) :
    x ∈ dictKeys d ∨ x = s := by
  unfold scoreStep at hx
  split at hx
  · split at hx
    · exact (mem_dictKeys_addScore d s _ x).mp hx
    · exact Or.inl hx
  · exact Or.inl hx

/-- A `scoreStep` on a table word of a short sentence records the
sentence. -/
theorem scoreStep_self_mem (wf : List (String × ℚ)) (s : String)
    (d : List (String × ℚ)) (w : String) (hw : w ∈ dictKeys wf)
    (hlen : (pySplitSp s).length < 30) :
    s ∈ dictKeys (scoreStep wf s d w) := by
  unfold scoreStep
  rw [if_pos hw, if_pos hlen]
  exact (mem_dictKeys_addScore d s _ s).mpr (Or.inr rfl)

/-- The sentence-length filter `len(sentence.split(' ')) < 30`: a sentence
with 30 or more raw tokens is never scored — the whole inner loop is the
identity on the score dictionary. -/
theorem scoreSentence_of_long (wf d : List (String × ℚ)) (s : String)
    (h : ¬ (pySplitSp s).length < 30) : scoreSentence wf d s = d := by
  unfold scoreSentence
  generalize wordTokenize (pyLower s) = ts
  induction ts generalizing d with
  | nil => rfl
  | cons w ws ih =>
    rw [List.foldl_cons]
    have hstep : scoreStep wf s d w = d := by
      unfold scoreStep
      rw [if_neg h]
      split <;> rfl
    rw [hstep]
    exact ih d

/-- Folding `scoreStep` over any token list never removes a key. -/
theorem mem_dictKeys_tokenFold_mono (wf : List (String × ℚ)) (s : String)
    (ts : List String) (d : List (String × ℚ)) (x : String) (hx : x ∈ dictKeys d) :
    x ∈ dictKeys (ts.foldl (scoreStep wf s) d) := by
  induction ts generalizing d with
  | nil => exact hx
  | cons w ws ih =>
    rw [List.foldl_cons]
    exact ih _ (mem_dictKeys_scoreStep_mono wf s d w x hx)

/-- Scoring one sentence never removes a key. -/
theorem mem_dictKeys_scoreSentence_mono (wf d : List (String × ℚ)) (s x : String)
    (hx : x ∈ dictKeys d) : x ∈ dictKeys (scoreSentence wf d s) :=
  mem_dictKeys_tokenFold_mono wf s _ d x hx

/-- Scoring one sentence can only add that sentence's key. -/
theorem mem_dictKeys_scoreSentence_elim (wf d : List (String × ℚ)) (s x : String)
    (hx : x ∈ dictKeys (scoreSentence wf d s)) : x ∈ dictKeys d ∨ x = s := by
  unfold scoreSentence at hx
  generalize hts : wordTokenize (pyLower s) = ts at hx
  clear hts
  induction ts generalizing d with
  | nil => exact Or.inl hx
  | cons w ws ih =>
    rw [List.foldl_cons] at hx
    rcases ih _ hx with h | h
    · exact mem_dictKeys_scoreStep_elim wf s d w x h
    · exact Or.inr h

/-- A short sentence containing at least one word of the frequency table
receives a score. -/
theorem scoreSentence_self_mem (wf d : List (String × ℚ)) (s : String)
    (hlen : (pySplitSp s).length < 30)
    (hw : ∃ w ∈ wordTokenize (pyLower s), w ∈ dictKeys wf) :
    s ∈ dictKeys (scoreSentence wf d s) := by
  unfold scoreSentence
  generalize hts : wordTokenize (pyLower s) = ts at hw
  clear hts
  induction ts generalizing d with
  | nil => simp at hw
  | cons w ws ih =>
    rw [List.foldl_cons]
    rcases hw with ⟨w0, hw0, hw0k⟩
    rcases List.mem_cons.mp hw0 with h | h
    · subst h
      exact mem_dictKeys_tokenFold_mono wf s ws _ s
        (scoreStep_self_mem wf s d w0 hw0k hlen)
    · exact ih _ ⟨w0, h, hw0k⟩

/-- A sentence of 30 or more raw tokens never enters the score
dictionary. -/
theorem long_not_mem_sentenceScores (wf : List (String × ℚ)) (sentences : List String)
    (s : String) (h : ¬ (pySplitSp s).length < 30) :
    s ∉ dictKeys (sentenceScores wf sentences) := by
  unfold sentenceScores
  have aux : ∀ (sents : List String) (acc : List (String × ℚ)), s ∉ dictKeys acc →
      s ∉ dictKeys (sents.foldl (scoreSentence wf) acc) := by
    intro sents
    induction sents with
    | nil => intro acc hacc; exact hacc
    | cons s2 rest ih =>
      intro acc hacc
      rw [List.foldl_cons]
      apply ih
      intro hmem
      by_cases hss : s2 = s
      · subst hss
        rw [scoreSentence_of_long wf acc s2 h] at hmem
        exact hacc hmem
      · rcases mem_dictKeys_scoreSentence_elim wf acc s2 s hmem with h2 | h2
        · exact hacc h2
        · exact hss h2.symm
  exact aux sentences [] (by simp [dictKeys])

/-- A segmented sentence of fewer than 30 raw tokens containing a
frequency-table word enters the score dictionary. -/
theorem short_mem_sentenceScores (wf : List (String × ℚ)) (sentences : List String)
    (s : String) (hs : s ∈ sentences) (hlen : (pySplitSp s).length < 30)
    (hw : ∃ w ∈ wordTokenize (pyLower s), w ∈ dictKeys wf) :
    s ∈ dictKeys (sentenceScores wf sentences) := by
  unfold sentenceScores
  have aux : ∀ (sents : List String) (acc : List (String × ℚ)),
      s ∈ sents ∨ s ∈ dictKeys acc →
      s ∈ dictKeys (sents.foldl (scoreSentence wf) acc) := by
    intro sents
    induction sents with
    | nil =>
      intro acc hacc
      rcases hacc with h | h
      · simp at h
      · exact h
    | cons s2 rest ih =>
      intro acc hacc
      rw [List.foldl_cons]
      rcases hacc with h | h
      · rcases List.mem_cons.mp h with h2 | h2
        · subst h2
          exact ih _ (Or.inr (scoreSentence_self_mem wf acc s hlen hw))
        · exact ih _ (Or.inl h2)
      · exact ih _ (Or.inr (mem_dictKeys_scoreSentence_mono wf acc s2 s h))
  exact aux sentences [] (Or.inl hs)

/-- Every selected sentence is a key of the score dictionary. -/
theorem mem_nlargestKeys (n : Nat) (d : List (String × ℚ)) (x : String)
    (h : x ∈ nlargestKeys n d) : x ∈ dictKeys d := by
  unfold nlargestKeys at h
  have h2 := (List.take_sublist n _).mem h
  exact (List.mem_insertionSort _).mp h2

/-- C1 (amended): in the extractive summarizer a sentence unit whose raw
token count (`len(sentence.split(' '))`, stop-words included) is 30 OR
MORE is excluded from scoring entirely and never selected into the
summary; a unit with FEWER than 30 raw tokens that contains at least one
word of the frequency table remains eligible — it receives a score.  (The
source filter is `< 30`, so the boundary case of exactly 30 tokens is
excluded, not eligible as the original claim states.) -/
theorem c1_length_filter (ws : List String) (s : String) :
    (30 ≤ (pySplitSp s).length →
      s ∉ dictKeys (summaryScores ws) ∧ s ∉ nlargestKeys 4 (summaryScores ws)) ∧
    (s ∈ summarySentences ws → (pySplitSp s).length < 30 →
      (∃ w ∈ wordTokenize (pyLower s), w ∈ dictKeys (summaryWF ws)) →
      s ∈ dictKeys (summaryScores ws)) := by
  constructor
  · intro h
    have h1 : s ∉ dictKeys (summaryScores ws) :=
      long_not_mem_sentenceScores _ _ _ (by omega)
    exact ⟨h1, fun hc => h1 (mem_nlargestKeys _ _ _ hc)⟩
  · intro hs hlen hw
    exact short_mem_sentenceScores _ _ _ hs hlen hw

/-- The concrete word stream for the C1 boundary counterexample: a
30-token sentence followed by three copies of a 2-token sentence. -/
def c1ws : List String :=
  ["the", "quick", "brown", "fox", "jumps", "over", "the", "lazy", "dog", "while",
   "many", "other", "animals", "watch", "from", "behind", "the", "old", "wooden",
   "fence", "near", "the", "quiet", "river", "bank", "under", "a", "bright",
   "morning", "sky.", "Dogs", "bark.", "Dogs", "bark.", "Dogs", "bark."]

/-- The 30-token sentence unit of `c1ws`. -/
def c1s : String := joinSp (c1ws.take 30)

set_option maxRecDepth 40000 in
/-- C1 counterexample: in the stream `c1ws`, the segmented sentence `c1s`
has a raw token count of exactly 30 and contains words of the frequency
table, yet it receives no score and is not selected — refuting the claim
that a sentence of exactly 30 raw tokens "remains eligible for scoring and
selection".  The 2-token sentence "Dogs bark." is scored and selected
instead. -/
theorem c1_counterexample :
    (pySplitSp c1s).length = 30 ∧
    c1s ∈ summarySentences c1ws ∧
    (∃ w ∈ wordTokenize (pyLower c1s), w ∈ dictKeys (summaryWF c1ws)) ∧
    c1s ∉ dictKeys (summaryScores c1ws) ∧
    dictKeys (summaryScores c1ws) = ["Dogs bark."] ∧
    generate_extractive_summary c1ws 4 = "Dogs bark." := by decide

set_option maxRecDepth 40000 in
/-- C1 witness: the amended theorem applied at the concrete stream `c1ws`,
excluding the 30-token sentence and scoring the short one. -/
theorem c1_witness :
    c1s ∉ dictKeys (summaryScores c1ws) ∧ "Dogs bark." ∈ dictKeys (summaryScores c1ws) := by
  constructor
  · exact ((c1_length_filter c1ws c1s).1 (by decide)).1
  · exact (c1_length_filter c1ws "Dogs bark.").2 (by decide) (by decide) (by decide)

/-- One record of the JSON event log.  The analyzers read exactly three
fields of each record (`timestamp`, `non_duplicate_count`,
`detected_words_list`); the remaining logged fields
(`total_words_detected`, `keywords`) are never accessed and are omitted. -/
structure LogRecord where
  timestamp : String
  non_duplicate_count : Nat
  detected_words_list : List String
deriving DecidableEq

/-- The keys of `collections.Counter(ws)` in iteration order: first
occurrence order in `ws` (Python dictionaries preserve insertion order). -/
def firstUniq (ws : List String) : List String :=
  ws.foldl (fun acc w => if w ∈ acc then acc else acc ++ [w]) []

/-- `collections.Counter(ws)` as an association list in first-occurrence
order. -/
def counterItems (ws : List String) : List (String × Nat) :=
  (firstUniq ws).map (fun w => (w, ws.count w))

/-- `Counter.most_common(k)`: the items stably sorted by descending count
(CPython uses `heapq.nlargest`, documented as
`sorted(iterable, key=key, reverse=True)[:n]`, a stable descending sort),
first `k` taken. -/
def mostCommon (t : List (String × Nat)) (k : Nat) : List (String × Nat) :=
  (t.insertionSort (fun a b => b.2 ≤ a.2)).take k

/-- A key event appended to `important_events`: a high-activity flag
(timestamp, word count) or a pause/break (timestamps of the adjacent pair
and the elapsed seconds).  The surrounding report prose of the two
analyzer variants differs; the data carried by each event does not. -/
inductive KeyEvt where
  | act : String → Nat → KeyEvt
  | gap : String → String → ℚ → KeyEvt
deriving DecidableEq

/-- The gap descriptors among a key-event list. -/
def gapDescriptors (evts : List KeyEvt) : List (String × String × ℚ) :=
  evts.filterMap (fun e =>
    match e with
    | KeyEvt.gap a b d => some (a, b, d)
    | _ => none)

/-- The high-activity descriptors among a key-event list. -/
def activityDescriptors (evts : List KeyEvt) : List (String × Nat) :=
  evts.filterMap (fun e =>
    match e with
    | KeyEvt.act a n => some (a, n)
    | _ => none)

namespace Updated

/-- `ACTIVITY_THRESHOLD = 50` (`ocr_updated_analyze.py` line 13). -/
def ACTIVITY_THRESHOLD : Nat := 50

/-- `GAP_THRESHOLD_SECONDS = 5` (line 14). -/
def GAP_THRESHOLD_SECONDS : ℚ := 5

/-- The record loop of `generate_narrative_summary`
(`ocr_updated_analyze.py` lines 110-116): parse each timestamp, keep the
record on success, and on failure `pass` — the record is skipped silently,
no warning is printed.  The second component collects printed warning
lines (none in this variant). -/
def processRecords (log : List LogRecord) : List (LogRecord × Nat) × List String :=
  log.foldl
    (fun acc r =>
      match parse_timestamp r.timestamp with
      | some t => (acc.1 ++ [(r, t)], acc.2)
      | none => (acc.1, acc.2))
    ([], [])

/-- The kept `timed_records`. -/
def timed (log : List LogRecord) : List (LogRecord × Nat) :=
  (processRecords log).1

/-- The warning lines printed while parsing (this variant prints none). -/
def warnings (log : List LogRecord) : List String :=
  (processRecords log).2

/-- `timed_records.sort(key=lambda x: x['dt_time'])` (line 121): Python's
sort is stable ascending. -/
def sortedRecords (log : List LogRecord) : List (LogRecord × Nat) :=
  (timed log).insertionSort (fun a b => a.2 ≤ b.2)

/-- The session start time (line 124), in microseconds of the day. -/
def startUs (log : List LogRecord) : Option Nat :=
  (sortedRecords log).head?.map (fun r => r.2)

/-- The session end time (line 125). -/
def endUs (log : List LogRecord) : Option Nat :=
  (sortedRecords log).getLast?.map (fun r => r.2)

/-- `total_duration` (line 126), in microseconds. -/
def durationUs (log : List LogRecord) : Option Int :=
  match (sortedRecords log).head?, (sortedRecords log).getLast? with
  | some a, some b => some ((b.2 : Int) - (a.2 : Int))
  | _, _ => none

/-- `all_content_words` (lines 129-131): the per-record word lists
concatenated in sorted session order. -/
def allContentWords (log : List LogRecord) : List String :=
  ((sortedRecords log).map (fun r => r.1.detected_words_list)).flatten

/-- `total_words_read` (line 134): sum of `non_duplicate_count` over the
kept records. -/
def totalWordsRead (log : List LogRecord) : Nat :=
  ((sortedRecords log).map (fun r => r.1.non_duplicate_count)).sum

/-- `top_content_words` (lines 133-135): the 10 most common words of the
merged stream. -/
def topContentWords (log : List LogRecord) : List String :=
  (mostCommon (counterItems (allContentWords log)) 10).map (fun p => p.1)

/-- The `important_events` loop (lines 141-150): enumerate the sorted
records; flag high activity when `non_duplicate_count >=
ACTIVITY_THRESHOLD`; from the second record on, flag a pause when the
elapsed seconds to the previous record reach `GAP_THRESHOLD_SECONDS`. -/
def eventScan : Option (LogRecord × Nat) → List (LogRecord × Nat) → List KeyEvt
  | _, [] => []
  | prev?, r :: rest =>
    (if ACTIVITY_THRESHOLD ≤ r.1.non_duplicate_count then
      [KeyEvt.act r.1.timestamp r.1.non_duplicate_count]
    else []) ++
    (match prev? with
     | none => []
     | some p =>
       if GAP_THRESHOLD_SECONDS ≤ total_seconds ((r.2 : Int) - (p.2 : Int)) then
         [KeyEvt.gap p.1.timestamp r.1.timestamp (total_seconds ((r.2 : Int) - (p.2 : Int)))]
       else []) ++
    eventScan (some r) rest

/-- The key events of a log, in detection order. -/
def importantEvents (log : List LogRecord) : List KeyEvt :=
  eventScan none (sortedRecords log)

end Updated

namespace Analyzer

/-- `ACTIVITY_THRESHOLD = 50` (`ocr_analyzer.py` line 9). -/
def ACTIVITY_THRESHOLD : Nat := 50

/-- `GAP_THRESHOLD_SECONDS = 5` (line 10). -/
def GAP_THRESHOLD_SECONDS : ℚ := 5

/-- The record loop of `generate_narrative_summary` (`ocr_analyzer.py`
lines 49-55): parse each timestamp, keep the record on success, and on
failure print a warning and skip the record. -/
def processRecords (log : List LogRecord) : List (LogRecord × Nat) × List String :=
  log.foldl
    (fun acc r =>
      match parse_timestamp r.timestamp with
      | some t => (acc.1 ++ [(r, t)], acc.2)
      | none =>
        (acc.1, acc.2 ++ ["[WARNING] Skipping record due to bad timestamp: " ++ r.timestamp]))
    ([], [])

/-- The kept `timed_records`. -/
def timed (log : List LogRecord) : List (LogRecord × Nat) :=
  (processRecords log).1

/-- The warning lines printed while parsing: one per skipped record. -/
def warnings (log : List LogRecord) : List String :=
  (processRecords log).2

/-- `timed_records.sort(key=lambda x: x['dt_time'])` (line 61). -/
def sortedRecords (log : List LogRecord) : List (LogRecord × Nat) :=
  (timed log).insertionSort (fun a b => a.2 ≤ b.2)

/-- The session start time (line 66). -/
def startUs (log : List LogRecord) : Option Nat :=
  (sortedRecords log).head?.map (fun r => r.2)

/-- The session end time (line 67). -/
def endUs (log : List LogRecord) : Option Nat :=
  (sortedRecords log).getLast?.map (fun r => r.2)

/-- `total_duration` (line 68), in microseconds. -/
def durationUs (log : List LogRecord) : Option Int :=
  match (sortedRecords log).head?, (sortedRecords log).getLast? with
  | some a, some b => some ((b.2 : Int) - (a.2 : Int))
  | _, _ => none

/-- `all_content_words` (lines 72-74). -/
def allContentWords (log : List LogRecord) : List String :=
  ((sortedRecords log).map (fun r => r.1.detected_words_list)).flatten

/-- `total_words_read` (line 64). -/
def totalWordsRead (log : List LogRecord) : Nat :=
  ((sortedRecords log).map (fun r => r.1.non_duplicate_count)).sum

/-- `top_content_words` (lines 76-77). -/
def topContentWords (log : List LogRecord) : List String :=
  (mostCommon (counterItems (allContentWords log)) 10).map (fun p => p.1)

/-- The `important_events` loop (lines 83-94). -/
def eventScan : Option (LogRecord × Nat) → List (LogRecord × Nat) → List KeyEvt
  | _, [] => []
  | prev?, r :: rest =>
    (if ACTIVITY_THRESHOLD ≤ r.1.non_duplicate_count then
      [KeyEvt.act r.1.timestamp r.1.non_duplicate_count]
    else []) ++
    (match prev? with
     | none => []
     | some p =>
       if GAP_THRESHOLD_SECONDS ≤ total_seconds ((r.2 : Int) - (p.2 : Int)) then
         [KeyEvt.gap p.1.timestamp r.1.timestamp (total_seconds ((r.2 : Int) - (p.2 : Int)))]
       else []) ++
    eventScan (some r) rest

/-- The key events of a log, in detection order. -/
def importantEvents (log : List LogRecord) : List KeyEvt :=
  eventScan none (sortedRecords log)

end Analyzer

/-- The record loop of the updated analyzer, run from any accumulator:
it appends exactly the records whose timestamps parse, and prints
nothing. -/
theorem processRecordsU_go (log : List LogRecord) (a : List (LogRecord × Nat))
    (w : List String) :
    log.foldl
      (fun acc r =>
        match parse_timestamp r.timestamp with
        | some t => (acc.1 ++ [(r, t)], acc.2)
        | none => (acc.1, acc.2)) (a, w) =
    (a ++ log.filterMap (fun r => (parse_timestamp r.timestamp).map (fun t => (r, t))), w) := by
  induction log generalizing a w with
  | nil => simp
  | cons r rest ih =>
    rw [List.foldl_cons, List.filterMap_cons]
    cases hp : parse_timestamp r.timestamp with
    | none =>
      simp only [hp]
      rw [ih]
      simp
    | some t =>
      simp only [hp, Option.map_some]
      rw [ih]
      simp

/-- The record loop of the original analyzer, run from any accumulator:
it appends exactly the records whose timestamps parse, and prints one
warning line per record whose timestamp does not parse. -/
theorem processRecordsA_go (log : List LogRecord) (a : List (LogRecord × Nat))
    (w : List String) :
    log.foldl
      (fun acc r =>
        match parse_timestamp r.timestamp with
        | some t => (acc.1 ++ [(r, t)], acc.2)
        | none =>
          (acc.1, acc.2 ++ ["[WARNING] Skipping record due to bad timestamp: " ++ r.timestamp]))
      (a, w) =
    (a ++ log.filterMap (fun r => (parse_timestamp r.timestamp).map (fun t => (r, t))),
     w ++ (log.filter (fun r => (parse_timestamp r.timestamp).isNone)).map
        (fun r => "[WARNING] Skipping record due to bad timestamp: " ++ r.timestamp)) := by
  induction log generalizing a w with
  | nil => simp
  | cons r rest ih =>
    rw [List.foldl_cons, List.filterMap_cons, List.filter_cons]
    cases hp : parse_timestamp r.timestamp with
    | none =>
      simp only [hp, Option.isNone_none]
      rw [ih]
      simp
    | some t =>
      simp only [hp, Option.map_some, Option.isNone_some]
      rw [ih]
      simp

/-- The kept records of the updated analyzer are exactly the records with
parseable timestamps, in order. -/
theorem timedU_eq (log : List LogRecord) :
    Updated.timed log =
      log.filterMap (fun r => (parse_timestamp r.timestamp).map (fun t => (r, t))) := by
  unfold Updated.timed Updated.processRecords
  rw [processRecordsU_go]
  simp

/-- The kept records of the original analyzer are exactly the records with
parseable timestamps, in order. -/
theorem timedA_eq (log : List LogRecord) :
    Analyzer.timed log =
      log.filterMap (fun r => (parse_timestamp r.timestamp).map (fun t => (r, t))) := by
  unfold Analyzer.timed Analyzer.processRecords
  rw [processRecordsA_go]
  simp

/-- Restricting a log to its parseable records does not change the kept
record sequence. -/
theorem filterMap_parse_filter (log : List LogRecord) :
    (log.filter (fun r => (parse_timestamp r.timestamp).isSome)).filterMap
        (fun r => (parse_timestamp r.timestamp).map (fun t => (r, t))) =
      log.filterMap (fun r => (parse_timestamp r.timestamp).map (fun t => (r, t))) := by
  induction log with
  | nil => rfl
  | cons r rest ih =>
    rw [List.filter_cons, List.filterMap_cons]
    cases hp : parse_timestamp r.timestamp with
    | none =>
      simp only [hp, Option.isSome_none]
      simpa using ih
    | some t =>
      simp only [hp, Option.isSome_some, if_true]
      rw [List.filterMap_cons]
      simp only [hp, Option.map_some]
      rw [ih]

/-- The concrete two-record log for the C2 counterexample: one bad
timestamp followed by one good one. -/
def c2log : List LogRecord :=
  [⟨"bogus", 3, ["x"]⟩, ⟨"10:00:00", 2, ["y"]⟩]

/-- C2 counterexample: on `c2log` the updated analyzer drops the record
with the unparsable timestamp `"bogus"` and keeps processing, but emits NO
warning (`except ValueError: pass`), refuting "dropped with a warning
emitted" for this variant; the original analyzer does emit the warning. -/
theorem c2_counterexample :
    Updated.timed c2log = [(⟨"10:00:00", 2, ["y"]⟩, 36000000000)] ∧
    Updated.warnings c2log = [] ∧
    Analyzer.warnings c2log = ["[WARNING] Skipping record due to bad timestamp: bogus"] := by
  decide

/-- C2 (amended): in both analyzer variants a record whose timestamp
matches neither accepted format is dropped and processing continues with
the remaining records — the kept records are exactly the parseable ones,
in order, and equal those of a log from which the bad records were removed
beforehand (the per-record failure never escapes the record loop).  The
original analyzer emits one warning line per dropped record; the updated
analyzer drops such records silently, with no warning. -/
theorem c2_bad_timestamp_handling (log : List LogRecord) :
    Updated.timed log =
      log.filterMap (fun r => (parse_timestamp r.timestamp).map (fun t => (r, t))) ∧
    Analyzer.timed log =
      log.filterMap (fun r => (parse_timestamp r.timestamp).map (fun t => (r, t))) ∧
    Updated.warnings log = [] ∧
    Analyzer.warnings log =
      (log.filter (fun r => (parse_timestamp r.timestamp).isNone)).map
        (fun r => "[WARNING] Skipping record due to bad timestamp: " ++ r.timestamp) ∧
    Updated.timed log =
      Updated.timed (log.filter (fun r => (parse_timestamp r.timestamp).isSome)) := by
  refine ⟨timedU_eq log, timedA_eq log, ?_, ?_, ?_⟩
  · unfold Updated.warnings Updated.processRecords
    rw [processRecordsU_go]
  · unfold Analyzer.warnings Analyzer.processRecords
    rw [processRecordsA_go]
    simp
  · rw [timedU_eq, timedU_eq, filterMap_parse_filter]

/-- `detectGaps(orderedEvents, gapThresholdSeconds)` written following the
spec's words: for each adjacent pair `(prev, cur)`, if
`cur.time - prev.time >= gapThresholdSeconds`, emit
`{from: prev.timestamp, to: cur.timestamp, deltaSeconds}`. -/
def detectGapsSpec (threshold : ℚ) (rs : List (LogRecord × Nat)) :
    List (String × String × ℚ) :=
  (rs.zip rs.tail).filterMap (fun pc =>
    if threshold ≤ total_seconds ((pc.2.2 : Int) - (pc.1.2 : Int)) then
      some (pc.1.1.timestamp, pc.2.1.timestamp, total_seconds ((pc.2.2 : Int) - (pc.1.2 : Int)))
    else none)

/-- `detectHighActivity(orderedEvents, activityThreshold)` written
following the spec's words: for each event with
`non_duplicate_count >= activityThreshold`, emit `{timestamp, count}`. -/
def detectHighActivitySpec (threshold : Nat) (rs : List (LogRecord × Nat)) :
    List (String × Nat) :=
  (rs.filter (fun r => threshold ≤ r.1.non_duplicate_count)).map
    (fun r => (r.1.timestamp, r.1.non_duplicate_count))

/-- The gap events emitted from a scan that has already seen `p` are those
of the adjacent pairs of `p :: rs`. -/
theorem gapScan_some : ∀ (rs : List (LogRecord × Nat)) (p : LogRecord × Nat),
    gapDescriptors (Updated.eventScan (some p) rs) =
      detectGapsSpec Updated.GAP_THRESHOLD_SECONDS (p :: rs)
  | [], p => rfl
  | r :: rest, p => by
    have ih := gapScan_some rest r
    simp only [Updated.eventScan, gapDescriptors, List.filterMap_append] at ih ⊢
    rw [ih]
    simp only [detectGapsSpec, List.zip_cons_cons, List.tail_cons, List.filterMap_cons]
    split
    · split
      · simp [gapDescriptors, detectGapsSpec]
      · simp [gapDescriptors, detectGapsSpec]
    · split
      · simp [gapDescriptors, detectGapsSpec]
      · simp [gapDescriptors, detectGapsSpec]

/-- The gap events of the updated analyzer's event scan are exactly the
spec's `detectGaps` of the ordered records. -/
theorem gapScan_eq (rs : List (LogRecord × Nat)) :
    gapDescriptors (Updated.eventScan none rs) =
      detectGapsSpec Updated.GAP_THRESHOLD_SECONDS rs := by
  cases rs with
  | nil => rfl
  | cons r rest =>
    have ih := gapScan_some rest r
    simp only [Updated.eventScan, gapDescriptors, List.filterMap_append] at ih ⊢
    rw [ih]
    simp [detectGapsSpec, gapDescriptors]

/-- The high-activity events of the updated analyzer's event scan are
exactly the spec's `detectHighActivity` of the ordered records, whatever
record the scan saw last. -/
theorem actScan_eq : ∀ (rs : List (LogRecord × Nat)) (prev? : Option (LogRecord × Nat)),
    activityDescriptors (Updated.eventScan prev? rs) =
      detectHighActivitySpec Updated.ACTIVITY_THRESHOLD rs
  | [], _ => rfl
  | r :: rest, prev? => by
    have ih := actScan_eq rest (some r)
    simp only [Updated.eventScan, activityDescriptors, List.filterMap_append] at ih ⊢
    rw [ih]
    simp only [detectHighActivitySpec, List.filter_cons]
    cases prev? with
    | none =>
      split
      · simp [activityDescriptors, detectHighActivitySpec, *]
      · simp [activityDescriptors, detectHighActivitySpec, *]
    | some p =>
      split
      · split <;> simp [activityDescriptors, detectHighActivitySpec, *]
      · split <;> simp [activityDescriptors, detectHighActivitySpec, *]

/-- The three-event log of the C5 example: events at `T`, `T+2s`,
`T+8s`. -/
def c5log : List LogRecord :=
  [⟨"09:00:00", 1, []⟩, ⟨"09:00:02", 1, []⟩, ⟨"09:00:08", 1, []⟩]

/-- C5: the updated analyzer's scan emits, for every adjacent pair
`(prev, cur)` of the ordered records, exactly one gap descriptor
`(prev.timestamp, cur.timestamp, cur.time - prev.time)` if and only if the
elapsed seconds reach `GAP_THRESHOLD_SECONDS` (5.0) — its gap output
equals the spec's `detectGaps` pointwise; and on events at `T`, `T+2s`,
`T+8s` exactly one gap is reported, between the 2nd and 3rd events, with a
delta of 6.0 seconds. -/
theorem c5_gap_detection :
    (∀ rs, gapDescriptors (Updated.eventScan none rs) =
        detectGapsSpec Updated.GAP_THRESHOLD_SECONDS rs) ∧
    gapDescriptors (Updated.importantEvents c5log) = [("09:00:02", "09:00:08", 6)] := by
  refine ⟨gapScan_eq, ?_⟩
  have hs : Updated.sortedRecords c5log =
      [(⟨"09:00:00", 1, []⟩, 32400000000), (⟨"09:00:02", 1, []⟩, 32402000000),
       (⟨"09:00:08", 1, []⟩, 32408000000)] := by decide
  rw [Updated.importantEvents, gapScan_eq, hs]
  norm_num [detectGapsSpec, total_seconds, Updated.GAP_THRESHOLD_SECONDS]
  rw [List.filterMap_cons, List.filterMap_nil]
  norm_num

/-- The two-event log of the C6 example: counts 49 and 50. -/
def c6log : List LogRecord :=
  [⟨"10:00:00", 49, []⟩, ⟨"10:00:01", 50, []⟩]

/-- C6: the updated analyzer's scan flags exactly the kept records whose
`non_duplicate_count` is at least `ACTIVITY_THRESHOLD` (50) — its
high-activity output equals the spec's `detectHighActivity` pointwise —
and concretely an event with count 49 is not flagged while one with count
50 is. -/
theorem c6_high_activity :
    (∀ (rs : List (LogRecord × Nat)) (prev? : Option (LogRecord × Nat)),
      activityDescriptors (Updated.eventScan prev? rs) =
        detectHighActivitySpec Updated.ACTIVITY_THRESHOLD rs) ∧
    activityDescriptors (Updated.importantEvents c6log) = [("10:00:01", 50)] := by
  refine ⟨fun rs prev? => actScan_eq rs prev?, ?_⟩
  rw [Updated.importantEvents, actScan_eq]
  decide

/-- The per-record counts kept by the record loop depend only on each
record's `(timestamp, non_duplicate_count)` projection, not on its word
list. -/
theorem filterMap_counts_proj : ∀ (log log2 : List LogRecord),
    log.map (fun r => (r.timestamp, r.non_duplicate_count)) =
      log2.map (fun r => (r.timestamp, r.non_duplicate_count)) →
    (log.filterMap (fun r => (parse_timestamp r.timestamp).map (fun t => (r, t)))).map
        (fun r => r.1.non_duplicate_count) =
      (log2.filterMap (fun r => (parse_timestamp r.timestamp).map (fun t => (r, t)))).map
        (fun r => r.1.non_duplicate_count)
  | [], log2, h => by
    cases log2 with
    | nil => rfl
    | cons b l => simp at h
  | r :: rest, log2, h => by
    cases log2 with
    | nil => simp at h
    | cons r2 rest2 =>
      simp only [List.map_cons, List.cons.injEq, Prod.mk.injEq] at h
      obtain ⟨⟨hts, hc⟩, hrest⟩ := h
      have ih := filterMap_counts_proj rest rest2 hrest
      rw [List.filterMap_cons, List.filterMap_cons, hts]
      cases hp : parse_timestamp r2.timestamp with
      | none => simpa [hp] using ih
      | some t =>
        simp [ih, hc]

/-- C7: the updated analyzer's reported total of words read equals the sum
of `non_duplicate_count` over the kept (valid-timestamp) records —
independent of the sort performed before summing — and it is unchanged by
any alteration of the records' word lists: two logs agreeing on every
record's `(timestamp, non_duplicate_count)` projection yield the same
total. -/
theorem c7_total_words :
    (∀ log, Updated.totalWordsRead log =
        ((Updated.timed log).map (fun r => r.1.non_duplicate_count)).sum) ∧
    (∀ log log2 : List LogRecord,
      log.map (fun r => (r.timestamp, r.non_duplicate_count)) =
        log2.map (fun r => (r.timestamp, r.non_duplicate_count)) →
      Updated.totalWordsRead log = Updated.totalWordsRead log2) := by
  have hsum : ∀ log, Updated.totalWordsRead log =
      ((Updated.timed log).map (fun r => r.1.non_duplicate_count)).sum := by
    intro log
    unfold Updated.totalWordsRead Updated.sortedRecords
    exact List.Perm.sum_eq ((List.perm_insertionSort _ _).map _)
  refine ⟨hsum, fun log log2 h => ?_⟩
  rw [hsum, hsum, timedU_eq, timedU_eq, filterMap_counts_proj log log2 h]

/-- C7 witness: the theorem applied to two concrete logs that differ only
in their word lists. -/
theorem c7_witness :
    Updated.totalWordsRead [⟨"10:00:00", 3, ["a", "b"]⟩, ⟨"10:00:01", 4, ["c"]⟩] =
      Updated.totalWordsRead [⟨"10:00:00", 3, ["zzz"]⟩, ⟨"10:00:01", 4, []⟩] :=
  c7_total_words.2 _ _ (by decide)

/-- C8: the top-words query `Counter(ws).most_common(10)` returns at most
10 items; every returned item's count is at least the count of every table
item not returned; ties are broken by first-occurrence order in the merged
word sequence (the stable descending sort preserves any
count-non-increasing pair of table entries, and the table is built in
first-occurrence order); and the query is deterministic — equal inputs
give equal outputs. -/
theorem c8_top_words (ws : List String) :
    (mostCommon (counterItems ws) 10).length ≤ 10 ∧
    (∀ p ∈ mostCommon (counterItems ws) 10, ∀ q ∈ counterItems ws,
      q ∉ mostCommon (counterItems ws) 10 → q.2 ≤ p.2) ∧
    (∀ p q : String × Nat, List.Sublist [p, q] (counterItems ws) → q.2 ≤ p.2 →
      List.Sublist [p, q] ((counterItems ws).insertionSort (fun a b => b.2 ≤ a.2))) ∧
    (∀ ws2, ws = ws2 → mostCommon (counterItems ws) 10 = mostCommon (counterItems ws2) 10) := by
  haveI htot : IsTotal (String × Nat) (fun a b => b.2 ≤ a.2) := ⟨fun a b => Nat.le_total b.2 a.2⟩
  haveI htr : IsTrans (String × Nat) (fun a b => b.2 ≤ a.2) :=
    ⟨fun _ _ _ hab hbc => Nat.le_trans hbc hab⟩
  refine ⟨?_, ?_, ?_, ?_⟩
  · exact List.length_take_le 10 _
  · intro p hp q hq hq2
    have hsorted : List.Sorted (fun a b : String × Nat => b.2 ≤ a.2)
        ((counterItems ws).insertionSort (fun a b => b.2 ≤ a.2)) :=
      List.sorted_insertionSort _ _
    have hq3 : q ∈ (counterItems ws).insertionSort (fun a b => b.2 ≤ a.2) :=
      (List.mem_insertionSort _).mpr hq
    rw [← List.take_append_drop 10 ((counterItems ws).insertionSort (fun a b => b.2 ≤ a.2))]
      at hq3
    rcases List.mem_append.mp hq3 with h | h
    · exact absurd h hq2
    · exact hsorted.rel_of_mem_take_of_mem_drop hp h
  · intro p q hsub hle
    exact List.pair_sublist_insertionSort hle hsub
  · intro ws2 h
    rw [h]

/-- The concrete word stream for the C8 witness: eleven distinct words,
the first one repeated. -/
def c8ws : List String :=
  ["w1", "w2", "w3", "w4", "w5", "w6", "w7", "w8", "w9", "w10", "w11", "w1"]

/-- C8 witness: the theorem applied at `c8ws`, whose table has eleven
entries so that one item (count 1) is not returned, and with a tied pair
kept in first-occurrence order. -/
theorem c8_witness :
    (("w11" : String), 1).2 ≤ (("w1" : String), 2).2 ∧
    List.Sublist [(("w2" : String), 1), (("w3" : String), 1)]
      ((counterItems c8ws).insertionSort (fun a b => b.2 ≤ a.2)) := by
  constructor
  · exact (c8_top_words c8ws).2.1 ("w1", 2) (by decide) ("w11", 1) (by decide) (by decide)
  · exact (c8_top_words c8ws).2.2.1 ("w2", 1) ("w3", 1) (by decide) (by decide)

/-- The two variants' event scans agree on every input. -/
theorem eventScan_agree : ∀ (prev? : Option (LogRecord × Nat)) (rs : List (LogRecord × Nat)),
    Analyzer.eventScan prev? rs = Updated.eventScan prev? rs
  | _, [] => rfl
  | prev?, r :: rest => by
    have ih := eventScan_agree (some r) rest
    simp only [Analyzer.eventScan, Updated.eventScan, Analyzer.ACTIVITY_THRESHOLD,
      Updated.ACTIVITY_THRESHOLD, Analyzer.GAP_THRESHOLD_SECONDS,
      Updated.GAP_THRESHOLD_SECONDS, ih]

/-- C9: on every input log the two analyzer variants compute identical
analysis results outside the summarization method — the same kept records,
the same sorted session, the same start and end times, duration, total
words read, top-10 content words, and the same interleaved sequence of
high-activity and gap events (timestamps, counts and deltas alike); the
variants differ only in the narrative-excerpt section and surrounding
report prose, which carry no analysis data. -/
theorem c9_variants_agree (log : List LogRecord) :
    Analyzer.timed log = Updated.timed log ∧
    Analyzer.sortedRecords log = Updated.sortedRecords log ∧
    Analyzer.startUs log = Updated.startUs log ∧
    Analyzer.endUs log = Updated.endUs log ∧
    Analyzer.durationUs log = Updated.durationUs log ∧
    Analyzer.totalWordsRead log = Updated.totalWordsRead log ∧
    Analyzer.topContentWords log = Updated.topContentWords log ∧
    Analyzer.importantEvents log = Updated.importantEvents log := by
  have ht : Analyzer.timed log = Updated.timed log := by
    rw [timedA_eq, timedU_eq]
  have hs : Analyzer.sortedRecords log = Updated.sortedRecords log := by
    unfold Analyzer.sortedRecords Updated.sortedRecords
    rw [ht]
  refine ⟨ht, hs, ?_, ?_, ?_, ?_, ?_, ?_⟩
  · unfold Analyzer.startUs Updated.startUs
    rw [hs]
  · unfold Analyzer.endUs Updated.endUs
    rw [hs]
  · unfold Analyzer.durationUs Updated.durationUs
    rw [hs]
  · unfold Analyzer.totalWordsRead Updated.totalWordsRead
    rw [hs]
  · unfold Analyzer.topContentWords Updated.topContentWords
      Analyzer.allContentWords Updated.allContentWords
    rw [hs]
  · unfold Analyzer.importantEvents Updated.importantEvents
    rw [hs, eventScan_agree]
